import Mathlib

/-!
Verification of the state/configuration model of
`tools/cell_census_builder/src/cell_census_builder/build_state.py`.

The embedding models the Python module shallowly:

* YAML-representable Python values (`None`, `bool`, `int`, `str`) are the
  inductive `Value`; Python `==` on these values is `pyEq` (which conflates
  `bool` with `int`, as Python does).
* A Python `dict` with string keys is an association list `Dict` in insertion
  order; `dict.__setitem__` is `dictSet` (replace in place, else append),
  `dict.get` is `pyGet` (returning `Value.null` for a missing key, as Python
  `.get` returns `None`), `dict.update` is `dictUpdate`.
* File I/O is made explicit: `CensusBuildState.load` takes the list of parsed
  YAML documents of the log stream, `CensusBuildState.commit` returns the
  record appended to the log (`none` when no file is opened), and
  `CensusBuildState.commitAttempt` additionally takes a flag saying whether the
  `open(file, mode="a")` call fails.
-/

/-- YAML-representable scalar Python values used by the build state.
`null` models Python `None`. -/
inductive Value where
  | null
  | bool (b : Bool)
  | int (n : Int)
  | str (s : String)
deriving DecidableEq, Repr

/-- A Python value viewed as a number, if it is one: Python treats `True` as
`1` and `False` as `0` for equality. -/
def Value.toPyNum : Value → Option Int
  | .bool b => some (if b then 1 else 0)
  | .int n => some n
  | _ => none

/-- Python `==` on `Value`: numeric values (`bool`, `int`) compare by their
numeric value; otherwise comparison is structural. -/
def pyEq (a b : Value) : Bool :=
  match a.toPyNum, b.toPyNum with
  | some x, some y => x == y
  | _, _ => a == b

/-- A Python `dict` with string keys, as an association list in insertion
order.  All dictionaries built by the source module have string keys. -/
abbrev Dict := List (String × Value)

/-- One parsed YAML document of the state log (a record: a mapping). -/
abbrev Record := Dict

/-- Lookup of a key in a `Dict` (first binding wins; a `Dict` built by the
operations below never has duplicate keys). -/
def alookup : Dict → String → Option Value
  | [], _ => none
  | (k', v) :: t, k => if k' = k then some v else alookup t k

/-- Python `dict.get(key)`: the stored value, or `None` (here `Value.null`)
when the key is absent. -/
def pyGet (d : Dict) (k : String) : Value :=
  (alookup d k).getD Value.null

/-- Python `dict.__setitem__`: overwrite the binding in place when the key is
present, otherwise append it (insertion order). -/
def dictSet : Dict → String → Value → Dict
  | [], k, v => [(k, v)]
  | (k', v') :: t, k, v =>
      if k' = k then (k, v) :: t else (k', v') :: dictSet t k v

/-- Python `dict.update(r)`: apply every binding of `r` in order. -/
def dictUpdate (d r : Dict) : Dict :=
  r.foldl (fun a p => dictSet a p.1 p.2) d

/-- Model of `functools.reduce(lambda acc, r: acc.update(r) or acc, documents, dict())`:
fold all documents of the log stream, in file order, into one mapping. -/
def foldDocs (docs : List Record) : Dict :=
  docs.foldl dictUpdate []

/-- The last binding of `k` in `l` (later bindings override earlier ones). -/
def alookupLast (l : Dict) (k : String) : Option Value :=
  alookup l.reverse k

/-- Python `set.add` on a set of keys modelled as a duplicate-free list. -/
def insertKey (k : String) (l : List String) : List String :=
  if k ∈ l then l else k :: l

/-- A Python key as passed to `__setitem__`: a string, or a (hashable)
non-string key, represented by an `Int`. -/
inductive PyKey where
  | str (s : String)
  | int (n : Int)
deriving DecidableEq, Repr

/-- The error taxonomy of the spec.  In the source these are raised as
`KeyError`, `TypeError` (for both non-string keys and malformed config and
non-string build tags) and `OSError` respectively. -/
inductive PyError where
  | keyNotFound
  | invalidKeyType
  | malformedConfig
  | stateCommitFailed
  | invalidBuildTag
deriving DecidableEq, Repr

/-- Python method `MutableNamespace.__setitem__`: `raise TypeError` unless the key is a
string, else store the value unconditionally. -/
def MutableNamespace.setitemKey (d : Dict) (key : PyKey) (v : Value) :
    Except PyError Dict :=
  match key with
  | .str s => .ok (dictSet d s v)
  | .int _ => .error .invalidKeyType

/-- The class `CensusBuildState`: the namespace dictionary `_state` together with the
set `__dirty_keys` of keys changed since the last commit. -/
structure CensusBuildState where
  state : Dict
  dirtyKeys : List String
deriving DecidableEq, Repr

/-- Python method `CensusBuildState.__init__(**kwargs)`: store the keyword arguments and
mark every supplied key dirty (`set(kwargs)`).  Python keyword arguments
cannot repeat a key; `dedup` realises the set construction. -/
def CensusBuildState.init (kwargs : Dict) : CensusBuildState :=
  { state := kwargs, dirtyKeys := (kwargs.map Prod.fst).dedup }

/-- A fresh `CensusBuildState()` with no arguments: empty state, empty dirty set. -/
def emptyCBS : CensusBuildState := CensusBuildState.init []

/-- Python method `CensusBuildState.__setitem__` for a string key: return unchanged when
`self._state.get(key) == value` (Python equality, with `None` for a missing
key), else store the value and add the key to the dirty set. -/
def CensusBuildState.setItem (s : CensusBuildState) (k : String) (v : Value) :
    CensusBuildState :=
  if pyEq (pyGet s.state k) v then s
  else { state := dictSet s.state k v, dirtyKeys := insertKey k s.dirtyKeys }

/-- Python method `CensusBuildState.__setitem__` for an arbitrary Python key.  The
`self._state.get(key) == value` check runs first; since `_state` only ever
holds string keys, `get` of a non-string key yields `None`.  Only when that
check fails does `super().__setitem__` raise `TypeError` on a non-string
key. -/
def CensusBuildState.setItemKey (s : CensusBuildState) (key : PyKey)
    (v : Value) : Except PyError CensusBuildState :=
  let current := match key with
    | .str k => pyGet s.state k
    | .int _ => Value.null
  if pyEq current v then .ok s
  else
    match key with
    | .str k =>
        .ok { state := dictSet s.state k v, dirtyKeys := insertKey k s.dirtyKeys }
    | .int _ => .error .invalidKeyType

/-- Python classmethod `CensusBuildState.load`: fold all documents of the log stream in file
order (later bindings overwriting earlier ones), construct the state from the
folded mapping, then clear the dirty set. -/
def CensusBuildState.load (docs : List Record) : CensusBuildState :=
  { CensusBuildState.init (foldDocs docs) with dirtyKeys := [] }

/-- The record `{k: self[k] for k in self.__dirty_keys}` committed by
`commit`.  In the source `self[k]` is `self._state[k]`; every reachable state
has its dirty keys present in `_state`, so the `Value.null` default of
`pyGet` is never exercised. -/
def CensusBuildState.commitRecord (s : CensusBuildState) : Record :=
  s.dirtyKeys.map (fun k => (k, pyGet s.state k))

/-- Python method `CensusBuildState.commit`: when the dirty set is non-empty, build the
dirty record, clear the dirty set and append the record to the log (returned
as `some record`); when the dirty set is empty, do nothing — no file is
opened (`none`). -/
def CensusBuildState.commit (s : CensusBuildState) :
    CensusBuildState × Option Record :=
  if s.dirtyKeys.isEmpty then (s, none)
  else ({ s with dirtyKeys := [] }, some s.commitRecord)

/-- Python method `CensusBuildState.commit` with explicit I/O outcome: the dirty set is
cleared before `open(file, mode="a")` runs, so when `openFails` the error
propagates with the dirty set already empty and nothing appended. -/
def CensusBuildState.commitAttempt (s : CensusBuildState) (openFails : Bool) :
    CensusBuildState × Except PyError (Option Record) :=
  if s.dirtyKeys.isEmpty then (s, .ok none)
  else
    let s' : CensusBuildState := { s with dirtyKeys := [] }
    if openFails then (s', .error .stateCommitFailed)
    else (s', .ok (some s.commitRecord))

/-- The module constant `CENSUS_CONFIG_DEFAULTS`.  Two entries are computed from the environment
at import time and are therefore parameters of the model: `build_tag` is
`datetime.now().astimezone().date().isoformat()` and `max_workers` is
`2 + int(psutil.virtual_memory().total / (96 * 1024**3))`. -/
def censusConfigDefaults (buildTag : String) (maxWorkers : Int) : Dict :=
  [("verbose", .int 1),
   ("log_dir", .str "logs"),
   ("log_file", .str "build.log"),
   ("consolidate", .bool true),
   ("disable_dirty_git_check", .bool true),
   ("cell_census_S3_path", .str "s3://cellxgene-data-public/cell-census"),
   ("build_tag", .str buildTag),
   ("multi_process", .bool true),
   ("max_workers", .int maxWorkers),
   ("host_validation_disable", .bool false),
   ("host_validation_min_physical_memory", .int (512 * 1024 ^ 3)),
   ("host_validation_min_swap_memory", .int (2 * 1024 ^ 4)),
   ("host_validation_min_free_disk_space", .int (1 * 1024 ^ 4)),
   ("manifest", .null),
   ("test_first_n", .null)]

/-- The result of `yaml.safe_load` on a config document.  `pynone` is Python
`None`, returned both for an empty document and for a document whose body is
the YAML scalar `null` (or `~`); `yaml.safe_load` never returns a distinct
null object, so `scalar Value.null` does not arise from any document. -/
inductive YamlTop where
  | pynone
  | mapping (d : Dict)
  | sequence (l : List Value)
  | scalar (v : Value)
deriving DecidableEq, Repr

/-- Whether a `yaml.safe_load` result satisfies `isinstance(x, dict)`.
Note `isinstance(None, dict)` is false: Python `None` is not a mapping. -/
def YamlTop.isMapping : YamlTop → Bool
  | .mapping _ => true
  | _ => false

/-- Python method `CensusBuildConfig.__init__(**kwargs)`: copy the defaults, then apply the
keyword arguments over them (shallow key-by-key overwrite). -/
def CensusBuildConfig.init (buildTag : String) (maxWorkers : Int)
    (kwargs : Dict) : Dict :=
  dictUpdate (censusConfigDefaults buildTag maxWorkers) kwargs

/-- Python classmethod `CensusBuildConfig.load` applied to the parsed document: `None` (empty or
null document) is replaced by the empty mapping; a non-mapping top level
raises `TypeError`; a mapping becomes `cls(**user_config)`. -/
def CensusBuildConfig.load (buildTag : String) (maxWorkers : Int)
    (doc : YamlTop) : Except PyError Dict :=
  match doc with
  | .pynone => .ok (CensusBuildConfig.init buildTag maxWorkers [])
  | .mapping d => .ok (CensusBuildConfig.init buildTag maxWorkers d)
  | .sequence _ => .error .malformedConfig
  | .scalar _ => .error .malformedConfig

/-- A POSIX path as its list of segments; `p / seg` appends one segment
(the source only ever joins relative single-segment strings). -/
abbrev PPath := List String

/-- The class `CensusBuildArgs`: working directory, a `CensusBuildConfig` namespace
dictionary and a `CensusBuildState`. -/
structure CensusBuildArgs where
  working_dir : PPath
  config : Dict
  state : CensusBuildState
deriving DecidableEq, Repr

/-- The `build_tag` property: read `self.config.build_tag` (attribute access
is `self._state[key]`, raising `KeyError` when absent) and `raise TypeError`
unless it is a string. -/
def CensusBuildArgs.buildTag (a : CensusBuildArgs) : Except PyError String :=
  match alookup a.config "build_tag" with
  | some (.str s) => .ok s
  | some _ => .error .invalidBuildTag
  | none => .error .keyNotFound

/-- The `soma_path` property: `self.working_dir / self.build_tag / "soma"`. -/
def CensusBuildArgs.somaPath (a : CensusBuildArgs) : Except PyError PPath :=
  a.buildTag.map (fun t => a.working_dir ++ [t, "soma"])

/-- The `h5ads_path` property: `self.working_dir / self.build_tag / "h5ads"`. -/
def CensusBuildArgs.h5adsPath (a : CensusBuildArgs) : Except PyError PPath :=
  a.buildTag.map (fun t => a.working_dir ++ [t, "h5ads"])

theorem alookup_dictSet (d : Dict) (k : String) (v : Value) (q : String) :
    alookup (dictSet d k v) q = if k = q then some v else alookup d q := by
  induction d with
  | nil => simp [dictSet, alookup]
  | cons p t ih =>
    obtain ⟨k0, v0⟩ := p
    by_cases h : k0 = k
    · subst h
      simp only [dictSet, if_pos rfl, alookup]
      by_cases hq : k0 = q <;> simp [hq]
    · simp only [dictSet, if_neg h, alookup]
      by_cases hq : k0 = q
      · subst hq
        have hk : ¬k = k0 := fun hkq => h hkq.symm
        simp [alookup, hk]
      · simp [hq, ih]

theorem alookup_append (l₁ l₂ : Dict) (q : String) :
    alookup (l₁ ++ l₂) q = (alookup l₁ q).or (alookup l₂ q) := by
  induction l₁ with
  | nil => simp [alookup]
  | cons p t ih =>
    obtain ⟨k0, v0⟩ := p
    by_cases hq : k0 = q <;> simp [alookup, hq, ih]

theorem alookup_map (l : List String) (g : String → Value) (q : String) :
    alookup (l.map (fun k => (k, g k))) q
      = if q ∈ l then some (g q) else none := by
  induction l with
  | nil => simp [alookup]
  | cons a t ih =>
    by_cases ha : a = q
    · subst ha; simp [alookup]
    · have hqa : ¬q = a := fun hh => ha hh.symm
      simp [alookup, ha, ih, hqa]

theorem alookupLast_append (l₁ l₂ : Dict) (q : String) :
    alookupLast (l₁ ++ l₂) q = (alookupLast l₂ q).or (alookupLast l₁ q) := by
  simp [alookupLast, List.reverse_append, alookup_append]

theorem alookup_dictUpdate (d r : Dict) (q : String) :
    alookup (dictUpdate d r) q = (alookupLast r q).or (alookup d q) := by
  induction r generalizing d with
  | nil => simp [dictUpdate, alookupLast, alookup]
  | cons p t ih =>
    obtain ⟨k0, v0⟩ := p
    have hsplit : alookupLast ((k0, v0) :: t) q
        = (alookupLast t q).or (alookup [(k0, v0)] q) := by
      have hc : (k0, v0) :: t = [(k0, v0)] ++ t := rfl
      rw [hc, alookupLast_append]
      rfl
    simp only [dictUpdate, List.foldl_cons] at *
    rw [ih (dictSet d k0 v0), hsplit, alookup_dictSet]
    cases hX : alookupLast t q <;> by_cases hq : k0 = q <;>
      simp [Option.or, alookup, hq]

theorem foldDocs_append_single (docs : List Record) (r : Record) :
    foldDocs (docs ++ [r]) = dictUpdate (foldDocs docs) r := by
  simp [foldDocs, List.foldl_append]

theorem alookup_foldDocs (docs : List Record) (q : String) :
    alookup (foldDocs docs) q = alookupLast docs.flatten q := by
  induction docs using List.reverseRecOn with
  | nil => simp [foldDocs, alookupLast, alookup]
  | append_singleton l r ih =>
    rw [foldDocs_append_single, alookup_dictUpdate, ih]
    have : (l ++ [r]).flatten = l.flatten ++ r := by simp
    rw [this, alookupLast_append]

theorem mem_insertKey (k : String) (l : List String) (q : String) :
    q ∈ insertKey k l ↔ q = k ∨ q ∈ l := by
  unfold insertKey
  split <;> rename_i h
  · constructor
    · exact fun hq => Or.inr hq
    · rintro (rfl | hq)
      · exact h
      · exact hq
  · simp [List.mem_cons]

/-- A client operation on a `CensusBuildState`. -/
inductive Op where
  | set (k : String) (v : Value)
  | commit
deriving DecidableEq, Repr

/-- Run a sequence of `set`/`commit` operations, collecting the records the
commits append to the log, in file order. -/
def runOps (s : CensusBuildState) : List Op → CensusBuildState × List Record
  | [] => (s, [])
  | .set k v :: rest => runOps (s.setItem k v) rest
  | .commit :: rest =>
      let p := s.commit
      let q := runOps p.1 rest
      (q.1, p.2.toList ++ q.2)

/-- Every dirty key is present in the state dictionary.  This holds for all
states reachable through the API and justifies `pyGet` in `commitRecord`
standing for the `KeyError`-raising `self[k]`. -/
def wfCBS (s : CensusBuildState) : Prop :=
  ∀ k, k ∈ s.dirtyKeys → (alookup s.state k).isSome

/-- The clean part of the state agrees with the replay of the log written so
far: every non-dirty key has the same value in `foldDocs log` and in the
in-memory dictionary. -/
def agrees (log : List Record) (s : CensusBuildState) : Prop :=
  ∀ k, k ∉ s.dirtyKeys → alookup (foldDocs log) k = alookup s.state k

theorem setItem_wf {s : CensusBuildState} (hw : wfCBS s) (k : String)
    (v : Value) : wfCBS (s.setItem k v) := by
  unfold CensusBuildState.setItem
  split
  · exact hw
  · intro q hq
    rw [mem_insertKey] at hq
    rcases hq with rfl | hq
    · simp [alookup_dictSet]
    · by_cases hkq : k = q
      · simp [alookup_dictSet, hkq]
      · simpa [alookup_dictSet, hkq] using hw q hq

theorem setItem_agrees {log : List Record} {s : CensusBuildState}
    (ha : agrees log s) (k : String) (v : Value) :
    agrees log (s.setItem k v) := by
  unfold CensusBuildState.setItem
  split
  · exact ha
  · intro q hq
    rw [mem_insertKey] at hq
    push_neg at hq
    obtain ⟨hqk, hqd⟩ := hq
    have hkq : ¬k = q := fun h => hqk h.symm
    simpa [alookup_dictSet, hkq] using ha q hqd

theorem commit_fst_dirty (s : CensusBuildState) :
    (s.commit).1.dirtyKeys = [] := by
  unfold CensusBuildState.commit
  split <;> rename_i h
  · exact List.isEmpty_iff.mp h
  · rfl

theorem commit_wf (s : CensusBuildState) : wfCBS (s.commit).1 := by
  intro q hq
  rw [commit_fst_dirty] at hq
  cases hq

theorem alookup_commitRecord (s : CensusBuildState) (q : String) :
    alookup s.commitRecord q
      = if q ∈ s.dirtyKeys then some (pyGet s.state q) else none := by
  unfold CensusBuildState.commitRecord
  exact alookup_map s.dirtyKeys (pyGet s.state) q

theorem alookupLast_commitRecord (s : CensusBuildState) (q : String) :
    alookupLast s.commitRecord q
      = if q ∈ s.dirtyKeys then some (pyGet s.state q) else none := by
  unfold alookupLast CensusBuildState.commitRecord
  rw [← List.map_reverse]
  rw [alookup_map s.dirtyKeys.reverse (pyGet s.state) q]
  simp

theorem commit_agrees {log : List Record} {s : CensusBuildState}
    (hw : wfCBS s) (ha : agrees log s) :
    agrees (log ++ (s.commit).2.toList) (s.commit).1 := by
  unfold CensusBuildState.commit
  split <;> rename_i h
  · simpa using ha
  · intro q _
    simp only [Option.toList_some]
    rw [foldDocs_append_single, alookup_dictUpdate, alookupLast_commitRecord]
    by_cases hq : q ∈ s.dirtyKeys
    · have hsome := hw q hq
      obtain ⟨v, hv⟩ := Option.isSome_iff_exists.mp hsome
      simp [hq, Option.or, pyGet, hv]
    · simpa [hq, Option.or] using ha q hq

theorem runOps_invariant (ops : List Op) :
    ∀ (s : CensusBuildState) (log : List Record), wfCBS s → agrees log s →
      wfCBS (runOps s ops).1 ∧ agrees (log ++ (runOps s ops).2) (runOps s ops).1 := by
  induction ops with
  | nil =>
    intro s log hw ha
    refine ⟨hw, ?_⟩
    simpa [runOps] using ha
  | cons op rest ih =>
    intro s log hw ha
    cases op with
    | set k v =>
      simpa [runOps] using ih (s.setItem k v) log (setItem_wf hw k v)
        (setItem_agrees ha k v)
    | commit =>
      have h := ih (s.commit).1 (log ++ (s.commit).2.toList) (commit_wf s)
        (commit_agrees hw ha)
      simpa [runOps, List.append_assoc] using h

theorem runOps_append (l₁ l₂ : List Op) :
    ∀ s : CensusBuildState,
      runOps s (l₁ ++ l₂)
        = ((runOps (runOps s l₁).1 l₂).1,
           (runOps s l₁).2 ++ (runOps (runOps s l₁).1 l₂).2) := by
  induction l₁ with
  | nil => intro s; simp [runOps]
  | cons op rest ih =>
    intro s
    cases op with
    | set k v => simpa [runOps] using ih (s.setItem k v)
    | commit => simp [runOps, ih (s.commit).1, List.append_assoc]

/-- C1: for every sequence of `set`/`commit` operations starting from the
empty state and empty log, replaying the log produced by the commits (via
`CensusBuildState.load`) yields a key-value mapping equal to the in-memory
mapping immediately after the last commit; and replay folds records in file
order, later records' values overwriting earlier ones per key (lookup in the
replayed state is the last binding of the key across the concatenated
records). -/
theorem replay_reconstructs_state_after_commit (ops : List Op) (k : String)
    (docs : List Record) :
    alookup (CensusBuildState.load
        (runOps emptyCBS (ops ++ [Op.commit])).2).state k
      = alookup (runOps emptyCBS (ops ++ [Op.commit])).1.state k
    ∧ alookup (CensusBuildState.load docs).state k
      = alookupLast docs.flatten k := by
  refine ⟨?_, ?_⟩
  · have hinv := runOps_invariant ops emptyCBS []
      (fun q hq => by simp [emptyCBS, CensusBuildState.init] at hq)
      (fun q _ => rfl)
    obtain ⟨hw, ha⟩ := hinv
    rw [List.nil_append] at ha
    have hca := commit_agrees hw ha
    have hnd : k ∉ ((runOps emptyCBS ops).1.commit).1.dirtyKeys := by
      rw [commit_fst_dirty]
      exact List.not_mem_nil k
    have hkey := hca k hnd
    rw [runOps_append]
    simp only [runOps, List.append_nil]
    simpa [CensusBuildState.load, CensusBuildState.init] using hkey
  · simp [CensusBuildState.load, CensusBuildState.init, alookup_foldDocs]

theorem commit_of_dirty_nil {s : CensusBuildState} (h : s.dirtyKeys = []) :
    s.commit = (s, none) := by
  unfold CensusBuildState.commit
  simp [h]

/-- C2: when the dirty set is non-empty, `commit` appends exactly one record
whose mapping is exactly the dirty keys with their current in-memory values,
leaves the mapping unchanged and the dirty set empty; when the dirty set is
empty it performs no I/O (`none`: no file is opened); and a commit
immediately following a commit, with no intervening `set`, performs no I/O. -/
theorem commit_appends_exactly_dirty (s : CensusBuildState) (hw : wfCBS s) :
    (s.dirtyKeys ≠ [] →
      (s.commit).2 = some s.commitRecord
      ∧ (s.commit).1.state = s.state
      ∧ (s.commit).1.dirtyKeys = []
      ∧ (∀ q, q ∈ s.dirtyKeys → alookup s.commitRecord q = alookup s.state q)
      ∧ (∀ q, q ∉ s.dirtyKeys → alookup s.commitRecord q = none))
    ∧ (s.dirtyKeys = [] → s.commit = (s, none))
    ∧ ((s.commit).1.commit).2 = none := by
  refine ⟨?_, fun h => commit_of_dirty_nil h, ?_⟩
  · intro hne
    have hne' : ¬s.dirtyKeys.isEmpty = true := by
      intro h
      exact hne (List.isEmpty_iff.mp h)
    unfold CensusBuildState.commit
    rw [if_neg hne']
    refine ⟨rfl, rfl, rfl, ?_, ?_⟩
    · intro q hq
      rw [alookup_commitRecord, if_pos hq]
      obtain ⟨v, hv⟩ := Option.isSome_iff_exists.mp (hw q hq)
      simp [pyGet, hv]
    · intro q hq
      rw [alookup_commitRecord, if_neg hq]
  · rw [commit_of_dirty_nil (commit_fst_dirty s)]

theorem commit_appends_exactly_dirty_witness :
    (CensusBuildState.commit ⟨[("a", Value.int 1)], ["a"]⟩).2
      = some [("a", Value.int 1)] := by
  have hw : wfCBS ⟨[("a", Value.int 1)], ["a"]⟩ := by
    intro q hq
    rw [List.mem_singleton] at hq
    subst hq
    decide
  have h := (commit_appends_exactly_dirty ⟨[("a", Value.int 1)], ["a"]⟩ hw).1
    (by decide)
  exact h.1.trans (by decide)

/-- C3 counterexample: setting the absent key `"a"` to `null` on the empty
state stores nothing and dirties nothing (the `_state.get(key) == value`
check sees `None == None`), contradicting the claim that a `set` of an
absent key stores the value and dirties the key. -/
theorem setItem_absent_null_counterexample :
    (emptyCBS.setItem "a" Value.null).state = []
    ∧ (emptyCBS.setItem "a" Value.null).dirtyKeys = []
    ∧ ¬alookup (emptyCBS.setItem "a" Value.null).state "a"
        = some Value.null := by
  decide

/-- C3 amended: `set(k, v)` changes neither the mapping nor the dirty set
exactly when `v` equals, under Python equality, the stored value of `k` — or
`null` when `k` is absent (Python `dict.get`); otherwise it stores `v` as the
value of `k`, adds `k` to the dirty set, and leaves every other key's value
and dirtiness unchanged. -/
theorem setItem_noop_or_store (s : CensusBuildState) (k : String) (v : Value) :
    (pyEq (pyGet s.state k) v = true → s.setItem k v = s)
    ∧ (pyEq (pyGet s.state k) v = false →
        alookup (s.setItem k v).state k = some v
        ∧ k ∈ (s.setItem k v).dirtyKeys
        ∧ (∀ q, q ≠ k → alookup (s.setItem k v).state q = alookup s.state q)
        ∧ (∀ q, q ≠ k →
            (q ∈ (s.setItem k v).dirtyKeys ↔ q ∈ s.dirtyKeys))) := by
  constructor
  · intro h
    unfold CensusBuildState.setItem
    rw [if_pos h]
  · intro h
    unfold CensusBuildState.setItem
    rw [if_neg (by simp [h])]
    refine ⟨?_, ?_, ?_, ?_⟩
    · simp [alookup_dictSet]
    · exact (mem_insertKey k s.dirtyKeys k).mpr (Or.inl rfl)
    · intro q hq
      have hkq : ¬k = q := fun hh => hq hh.symm
      simp [alookup_dictSet, hkq]
    · intro q hq
      rw [mem_insertKey]
      simp [hq]

theorem setItem_noop_or_store_witness :
    (CensusBuildState.setItem ⟨[("a", Value.int 1)], []⟩ "a" (Value.int 1)
       = ⟨[("a", Value.int 1)], []⟩)
    ∧ alookup (CensusBuildState.setItem ⟨[("a", Value.int 1)], []⟩ "a"
        (Value.int 2)).state "a" = some (Value.int 2) := by
  constructor
  · exact (setItem_noop_or_store ⟨[("a", Value.int 1)], []⟩ "a"
      (Value.int 1)).1 (by decide)
  · exact ((setItem_noop_or_store ⟨[("a", Value.int 1)], []⟩ "a"
      (Value.int 2)).2 (by decide)).1

/-- C4: a state produced by `load` has an empty dirty set, and loading an
empty stream (zero records) yields an empty mapping. -/
theorem load_clean_and_empty (docs : List Record) :
    (CensusBuildState.load docs).dirtyKeys = []
    ∧ (CensusBuildState.load []).state = [] :=
  ⟨rfl, rfl⟩

/-- C5 counterexample: on a `CensusBuildState`, setting a non-string key to
`None` silently does nothing — the overridden `__setitem__` runs the
`_state.get(key) == value` no-op check before the string-key check of
`MutableNamespace.__setitem__`, and `get` of a key absent from `_state`
yields `None`. -/
theorem setItemKey_nonstring_null_counterexample :
    CensusBuildState.setItemKey emptyCBS (PyKey.int 0) Value.null
      = .ok emptyCBS
    ∧ CensusBuildState.setItemKey emptyCBS (PyKey.int 0) Value.null
        ≠ .error PyError.invalidKeyType := by
  have h : CensusBuildState.setItemKey emptyCBS (PyKey.int 0) Value.null
      = .ok emptyCBS := rfl
  refine ⟨h, ?_⟩
  intro hbad
  rw [h] at hbad
  exact Except.noConfusion hbad

/-- C5 amended: `MutableNamespace.set` fails with `InvalidKeyType` for every
non-string key and every value; `CensusBuildState.set` fails with
`InvalidKeyType` for every non-string key and every value other than `null`,
but silently does nothing when the value is `null` (the no-op check fires
first, since `get` of a non-string key on a string-keyed `_state` yields
`None`). -/
theorem setitem_nonstring_key_behavior :
    (∀ (d : Dict) (n : Int) (v : Value),
      MutableNamespace.setitemKey d (.int n) v = .error .invalidKeyType)
    ∧ (∀ (s : CensusBuildState) (n : Int) (v : Value), v ≠ Value.null →
      s.setItemKey (.int n) v = .error .invalidKeyType)
    ∧ (∀ (s : CensusBuildState) (n : Int),
      s.setItemKey (.int n) Value.null = .ok s) := by
  refine ⟨fun d n v => rfl, ?_, fun s n => rfl⟩
  intro s n v hv
  have hne : pyEq Value.null v = false := by
    cases v <;> simp_all [pyEq, Value.toPyNum]
  unfold CensusBuildState.setItemKey
  simp [hne]

theorem setitem_nonstring_key_behavior_witness :
    CensusBuildState.setItemKey emptyCBS (PyKey.int 7) (Value.int 1)
      = .error .invalidKeyType :=
  setitem_nonstring_key_behavior.2.1 emptyCBS 7 (Value.int 1) (by decide)

theorem alookup_eq_none_of_not_mem {l : Dict} {q : String}
    (h : q ∉ l.map Prod.fst) : alookup l q = none := by
  induction l with
  | nil => rfl
  | cons p t ih =>
    obtain ⟨k0, v0⟩ := p
    simp only [List.map_cons, List.mem_cons] at h
    push_neg at h
    have hk : ¬k0 = q := fun hh => h.1 hh.symm
    simp [alookup, hk, ih h.2]

theorem alookupLast_eq_alookup_of_nodup {l : Dict}
    (h : (l.map Prod.fst).Nodup) (q : String) : alookupLast l q = alookup l q := by
  induction l with
  | nil => rfl
  | cons p t ih =>
    obtain ⟨k0, v0⟩ := p
    simp only [List.map_cons, List.nodup_cons] at h
    have hsplit : alookupLast ((k0, v0) :: t) q
        = (alookupLast t q).or (alookup [(k0, v0)] q) := by
      have hc : (k0, v0) :: t = [(k0, v0)] ++ t := rfl
      rw [hc, alookupLast_append]
      rfl
    rw [hsplit]
    by_cases hq : k0 = q
    · subst hq
      have hnone : alookup t k0 = none := alookup_eq_none_of_not_mem h.1
      have hnone' : alookupLast t k0 = none := by
        unfold alookupLast
        exact alookup_eq_none_of_not_mem (by simpa using h.1)
      simp [hnone, hnone', alookup, Option.or]
    · rw [ih h.2]
      simp [alookup, hq]

/-- C6: loading a user document that parses to a mapping yields the defaults
overridden key-by-key by the user mapping (shallow overwrite); loading the
empty document yields exactly the defaults; a user key overrides only that
key while untouched default keys keep their default values (concrete
scenario: `max_workers` overridden to 8, `consolidate` keeps `true`). -/
theorem config_load_defaults_overridden (bt : String) (mw : Int) (user : Dict)
    (hnd : (user.map Prod.fst).Nodup) (q : String) :
    (CensusBuildConfig.load bt mw (.mapping user)
       = .ok (CensusBuildConfig.init bt mw user))
    ∧ alookup (CensusBuildConfig.init bt mw user) q
       = (alookup user q).or (alookup (censusConfigDefaults bt mw) q)
    ∧ CensusBuildConfig.load bt mw .pynone = .ok (censusConfigDefaults bt mw)
    ∧ (alookup (CensusBuildConfig.init "2024-01-01" 4
          [("max_workers", Value.int 8)]) "consolidate"
            = some (Value.bool true)
       ∧ alookup (CensusBuildConfig.init "2024-01-01" 4
          [("max_workers", Value.int 8)]) "max_workers"
            = some (Value.int 8)) := by
  refine ⟨rfl, ?_, rfl, by decide, by decide⟩
  unfold CensusBuildConfig.init
  rw [alookup_dictUpdate, alookupLast_eq_alookup_of_nodup hnd]

theorem config_load_defaults_overridden_witness :
    alookup (CensusBuildConfig.init "2024-01-01" 4
        [("max_workers", Value.int 8)]) "consolidate"
      = (alookup [("max_workers", Value.int 8)] "consolidate").or
          (alookup (censusConfigDefaults "2024-01-01" 4) "consolidate") :=
  (config_load_defaults_overridden "2024-01-01" 4
    [("max_workers", Value.int 8)] (by decide) "consolidate").2.1

/-- C7 counterexample: the YAML document `null` parses to Python `None`
(`YamlTop.pynone`), which is not a mapping (`isinstance(None, dict)` is
false), yet `CensusBuildConfig.load` succeeds with the defaults instead of
failing with `MalformedConfig`. -/
theorem config_load_null_doc_counterexample :
    YamlTop.pynone.isMapping = false
    ∧ CensusBuildConfig.load "2024-01-01" 4 .pynone
        = .ok (censusConfigDefaults "2024-01-01" 4)
    ∧ CensusBuildConfig.load "2024-01-01" 4 .pynone
        ≠ .error PyError.malformedConfig := by
  refine ⟨rfl, rfl, ?_⟩
  intro hbad
  rw [show CensusBuildConfig.load "2024-01-01" 4 .pynone
      = .ok (censusConfigDefaults "2024-01-01" 4) from rfl] at hbad
  exact Except.noConfusion hbad

/-- C7 amended: every config document whose top level parses to a non-mapping
value other than `None` (a sequence, or a non-null scalar) fails with
`MalformedConfig` and produces no config; a document parsing to `None` — the
empty document or the `null` document — is treated as the empty mapping and
yields the defaults. -/
theorem config_load_nonmapping_fails (bt : String) (mw : Int) :
    (∀ l : List Value,
      CensusBuildConfig.load bt mw (.sequence l) = .error .malformedConfig)
    ∧ (∀ v : Value,
      CensusBuildConfig.load bt mw (.scalar v) = .error .malformedConfig)
    ∧ CensusBuildConfig.load bt mw .pynone
        = .ok (censusConfigDefaults bt mw) :=
  ⟨fun _ => rfl, fun _ => rfl, rfl⟩

/-- C8: when `config.build_tag` is the string `t`, `soma_path` and
`h5ads_path` are the working directory joined with `t` joined with the fixed
suffixes `"soma"` and `"h5ads"`; when `config.build_tag` is present but not
a string, both fail with `InvalidBuildTag`. -/
theorem derived_paths (a : CensusBuildArgs) :
    (∀ t, alookup a.config "build_tag" = some (Value.str t) →
      a.somaPath = .ok (a.working_dir ++ [t, "soma"])
      ∧ a.h5adsPath = .ok (a.working_dir ++ [t, "h5ads"]))
    ∧ (∀ v, alookup a.config "build_tag" = some v → (∀ t, v ≠ Value.str t) →
      a.somaPath = .error .invalidBuildTag
      ∧ a.h5adsPath = .error .invalidBuildTag) := by
  constructor
  · intro t ht
    have hbt : a.buildTag = .ok t := by
      unfold CensusBuildArgs.buildTag
      rw [ht]
    constructor <;>
      simp [CensusBuildArgs.somaPath, CensusBuildArgs.h5adsPath, hbt,
        Except.map]
  · intro v hv hns
    have hbt : a.buildTag = .error .invalidBuildTag := by
      unfold CensusBuildArgs.buildTag
      rw [hv]
      cases v with
      | null => rfl
      | bool b => rfl
      | int n => rfl
      | str t => exact absurd rfl (hns t)
    constructor <;>
      simp [CensusBuildArgs.somaPath, CensusBuildArgs.h5adsPath, hbt,
        Except.map]

theorem derived_paths_witness :
    CensusBuildArgs.somaPath ⟨["wd"], [("build_tag", Value.str "2024")],
        emptyCBS⟩
      = .ok ["wd", "2024", "soma"]
    ∧ CensusBuildArgs.h5adsPath ⟨["wd"], [("build_tag", Value.int 3)],
        emptyCBS⟩
      = .error .invalidBuildTag := by
  constructor
  · exact ((derived_paths ⟨["wd"], [("build_tag", Value.str "2024")],
      emptyCBS⟩).1 "2024" (by decide)).1
  · exact ((derived_paths ⟨["wd"], [("build_tag", Value.int 3)],
      emptyCBS⟩).2 (Value.int 3) (by decide) (fun t => by simp)).2

/-- C9: the dirty set is cleared before the destination is opened for
append, so when the open fails the error propagates (`StateCommitFailed`)
with the dirty set already empty and the in-memory mapping unchanged, and no
later commit flushes the previously dirty keys (the next commit, successful
or not, performs no I/O). -/
theorem commit_failure_loses_dirty (s : CensusBuildState)
    (h : s.dirtyKeys ≠ []) :
    (s.commitAttempt true).2 = .error .stateCommitFailed
    ∧ (s.commitAttempt true).1.state = s.state
    ∧ (s.commitAttempt true).1.dirtyKeys = []
    ∧ (∀ b, ((s.commitAttempt true).1.commitAttempt b).2 = .ok none)
    ∧ ((s.commitAttempt true).1.commit).2 = none := by
  have hIsE : s.dirtyKeys.isEmpty = false := by
    cases hd : s.dirtyKeys with
    | nil => exact absurd hd h
    | cons a t => rfl
  refine ⟨?_, ?_, ?_, ?_, ?_⟩ <;>
    simp [CensusBuildState.commitAttempt, CensusBuildState.commit, hIsE]

theorem commit_failure_loses_dirty_witness :
    (CensusBuildState.commitAttempt ⟨[("a", Value.int 1)], ["a"]⟩ true).2
      = .error .stateCommitFailed :=
  (commit_failure_loses_dirty ⟨[("a", Value.int 1)], ["a"]⟩ (by decide)).1

/-- C10: constructing a `CensusBuildState` directly from initial key-value
pairs marks every supplied key dirty (the dirty set is exactly the initial
key set), and when the initial pairs are non-empty the first commit writes a
record containing exactly the initial keys. -/
theorem init_marks_all_dirty (kwargs : Dict) :
    (∀ q, q ∈ (CensusBuildState.init kwargs).dirtyKeys
        ↔ q ∈ kwargs.map Prod.fst)
    ∧ (kwargs ≠ [] →
        ∃ r, ((CensusBuildState.init kwargs).commit).2 = some r
          ∧ ∀ q, (q ∈ r.map Prod.fst ↔ q ∈ kwargs.map Prod.fst)) := by
  constructor
  · intro q
    simp [CensusBuildState.init, List.mem_dedup]
  · intro hne
    have h2 : (kwargs.map Prod.fst).dedup ≠ [] := by
      intro hd
      exact hne (by simpa using (List.dedup_eq_nil _).mp hd)
    have hIsE : (CensusBuildState.init kwargs).dirtyKeys.isEmpty = false := by
      cases hd : (kwargs.map Prod.fst).dedup with
      | nil => exact absurd hd h2
      | cons a t => simp [CensusBuildState.init, hd]
    refine ⟨(CensusBuildState.init kwargs).commitRecord, ?_, ?_⟩
    · simp [CensusBuildState.commit, hIsE]
    · intro q
      simp [CensusBuildState.commitRecord, CensusBuildState.init,
        List.mem_dedup]

theorem init_marks_all_dirty_witness :
    ∃ r, ((CensusBuildState.init [("x", Value.int 1)]).commit).2 = some r
      ∧ ∀ q, (q ∈ r.map Prod.fst
          ↔ q ∈ [("x", Value.int 1)].map Prod.fst) :=
  (init_marks_all_dirty [("x", Value.int 1)]).2 (by decide)
